import Mathlib

/-!
Shallow embedding of the hangman-api game core (controllers/gameController.js,
config/db.js): puzzle masking at game creation, the guess resolver, and the
response shapes of the three game endpoints, together with proofs of the
specified properties.
-/

namespace Hangman

/-- The apostrophe character (ASCII 39), one of the preserved characters. -/
def apostrophe : Char := Char.ofNat 39

/-- The `preserveChars` whitelist of `initializeGame`. -/
def preserveChars : List Char := [' ', '-', ':', ',', '.', apostrophe]

/-- Initial masking of the answer: `answer.split('').map(ch => preserveChars.includes(ch) ? ch : '_').join('')`. -/
def maskWord (answer : String) : String :=
  String.mk (answer.data.map (fun char => if preserveChars.contains char then char else '_'))

/-- The game record stored in the `games` collection (fields set by the controller;
the storage-only `createdAt` / `expiresAt` timestamps are external to the core). -/
structure GameData where
  level : String
  answer : String
  currentProgress : String
  attempts : Int
  gameOver : Bool
  guessedLetters : List Char
deriving DecidableEq

/-- The `gameData` record built by `initializeGame` for a fetched answer. -/
def initGameData (level answer : String) : GameData :=
  { level := level
    answer := answer
    currentProgress := maskWord answer
    attempts := 6
    gameOver := false
    guessedLetters := [] }

/-- Domain failure of game creation: the word lookup returned nothing. -/
inductive InitError where
  | noWordAvailable
deriving DecidableEq

/-- The `game` object serialized by the 201 response of `initializeGame`. -/
structure InitView where
  level : String
  attempts : Int
  currentProgress : String
  gameOver : Bool
deriving DecidableEq

/-- `initializeGame`: the word source yields `fetched` (absent modelled as `none`,
matching `getRandomWord` returning `null`); on absence the controller returns 404
before masking or creating any state, otherwise it masks the answer, stores the
new game record and responds with the non-secret view (the session token, issued
from the fresh game id, is external to the core). -/
def initializeGame (level : String) (fetched : Option String) :
    Except InitError (GameData × InitView) :=
  match fetched with
  | none => Except.error InitError.noWordAvailable
  | some answer =>
    let gameData := initGameData level answer
    Except.ok (gameData,
      { level := gameData.level
        attempts := gameData.attempts
        currentProgress := gameData.currentProgress
        gameOver := gameData.gameOver })

/-- Domain rejections of `makeGuess`. -/
inductive GuessError where
  | gameAlreadyOver
  | letterAlreadyGuessed
deriving DecidableEq

/-- The reveal loop of `makeGuess`: walks `answer` and `currentProgress` in
parallel, returning the scanned `updatedProgress` together with `isCorrectGuess`.
The second clause (progress exhausted early) is unreachable for game states
satisfying the length invariant `currentProgress.length = answer.length`. -/
def revealLoop (letter : Char) : List Char → List Char → List Char × Bool
  | [], _ => ([], false)
  | a :: as, p :: ps =>
    let rest := revealLoop letter as ps
    if a.toLower == letter then (a :: rest.1, true) else (p :: rest.1, rest.2)
  | a :: as, [] =>
    let rest := revealLoop letter as []
    if a.toLower == letter then (a :: rest.1, true) else ('_' :: rest.1, rest.2)

/-- Result of an accepted guess: the updated stored state (the `$set` update of
`updateGame` merged over the unchanged `level` / `answer`) plus the outcome flags
of the response. -/
structure GuessResult where
  newState : GameData
  isCorrectGuess : Bool
  won : Bool
deriving DecidableEq

/-- The accepted-guess branch of `makeGuess` (everything after the two rejection
checks): scan, attempts update, game-over computation, forced reveal. -/
def guessStep (game : GameData) (letter : Char) : GuessResult :=
  let scanned := revealLoop letter game.answer.data game.currentProgress.data
  let updatedProgress := String.mk scanned.1
  let isCorrectGuess := scanned.2
  let attempts : Int := if isCorrectGuess then game.attempts else game.attempts - 1
  let gameOver : Bool := decide (attempts ≤ 0) || (updatedProgress == game.answer)
  let finalProgress := if gameOver then game.answer else updatedProgress
  { newState :=
      { game with
        currentProgress := finalProgress
        attempts := attempts
        gameOver := gameOver
        guessedLetters := game.guessedLetters ++ [letter] }
    isCorrectGuess := isCorrectGuess
    won := gameOver && decide (0 < attempts) }

/-- The guess resolver of `makeGuess`: rejection checks in source order, then the
accepted-guess transition. -/
def makeGuess (game : GameData) (letter : Char) : Except GuessError GuessResult :=
  if game.gameOver then Except.error GuessError.gameAlreadyOver
  else if game.guessedLetters.contains letter then Except.error GuessError.letterAlreadyGuessed
  else Except.ok (guessStep game letter)

/-- The handler around the resolver: on rejection the controller returns early,
so the stored state is the old one; on acceptance `updateGame` persists the new
state. The first component is the stored state after the request. -/
def processGuess (game : GameData) (letter : Char) :
    GameData × Except GuessError GuessResult :=
  match makeGuess game letter with
  | Except.error e => (game, Except.error e)
  | Except.ok r => (r.newState, Except.ok r)

/-- The `game` object serialized by `getCurrentGame`. -/
structure CurrentView where
  level : String
  attempts : Int
  currentProgress : String
  gameOver : Bool
  guessedLetters : List Char
deriving DecidableEq

/-- `getCurrentGame`: the state-retrieval response body. -/
def getCurrentView (game : GameData) : CurrentView :=
  { level := game.level
    attempts := game.attempts
    currentProgress := game.currentProgress
    gameOver := game.gameOver
    guessedLetters := game.guessedLetters }

/-- The `game` object serialized by the 200 response of `makeGuess`. -/
structure GuessView where
  level : String
  attempts : Int
  currentProgress : String
  gameOver : Bool
  guessedLetters : List Char
  isCorrectGuess : Bool
  won : Bool
deriving DecidableEq

/-- The full guess endpoint: resolver outcome mapped to the response body. -/
def makeGuessView (game : GameData) (letter : Char) : Except GuessError GuessView :=
  (makeGuess game letter).map (fun r =>
    { level := game.level
      attempts := r.newState.attempts
      currentProgress := r.newState.currentProgress
      gameOver := r.newState.gameOver
      guessedLetters := r.newState.guessedLetters
      isCorrectGuess := r.isCorrectGuess
      won := r.won })

/-- The answer-free projection of a stored game state: every field except the
secret `answer`. -/
structure PublicGame where
  level : String
  attempts : Int
  currentProgress : String
  gameOver : Bool
  guessedLetters : List Char
deriving DecidableEq

/-- Drop the secret answer from a stored game state. -/
def erase (game : GameData) : PublicGame :=
  { level := game.level
    attempts := game.attempts
    currentProgress := game.currentProgress
    gameOver := game.gameOver
    guessedLetters := game.guessedLetters }

/-- Build the creation response from the answer-free projection alone. -/
def initViewOfPublic (p : PublicGame) : InitView :=
  { level := p.level
    attempts := p.attempts
    currentProgress := p.currentProgress
    gameOver := p.gameOver }

/-- Build the retrieval response from the answer-free projection alone. -/
def currentViewOfPublic (p : PublicGame) : CurrentView :=
  { level := p.level
    attempts := p.attempts
    currentProgress := p.currentProgress
    gameOver := p.gameOver
    guessedLetters := p.guessedLetters }

/-- Build the guess response from the answer-free projection plus the outcome flags. -/
def guessViewOfPublic (p : PublicGame) (isCorrectGuess won : Bool) : GuessView :=
  { level := p.level
    attempts := p.attempts
    currentProgress := p.currentProgress
    gameOver := p.gameOver
    guessedLetters := p.guessedLetters
    isCorrectGuess := isCorrectGuess
    won := won }

/-- Game states reachable through the controller: freshly created games, and
states persisted after an accepted guess. -/
inductive Reachable : GameData → Prop where
  | init (level answer : String) : Reachable (initGameData level answer)
  | step {g : GameData} {letter : Char} {r : GuessResult} :
      Reachable g → makeGuess g letter = Except.ok r → Reachable r.newState

/-- A terminal game state (lost game) whose guess history contains the letter
that is about to be resubmitted. -/
def overGameC4 : GameData :=
  { level := "movies"
    answer := "AB"
    currentProgress := "AB"
    attempts := 0
    gameOver := true
    guessedLetters := ['a', 'z', 'y', 'x', 'w', 'v', 'u'] }

/-! ### Basic lemmas about the resolver -/

theorem makeGuess_ok_elim {g : GameData} {letter : Char} {r : GuessResult}
    (h : makeGuess g letter = Except.ok r) :
    g.gameOver = false ∧ g.guessedLetters.contains letter = false ∧ r = guessStep g letter := by
  unfold makeGuess at h
  split at h
  next h1 => exact Except.noConfusion h
  next h1 =>
    split at h
    next h2 => exact Except.noConfusion h
    next h2 =>
      injection h with h3
      exact ⟨by simpa using h1, by simpa using h2, h3.symm⟩

theorem guessStep_attempts (g : GameData) (letter : Char) :
    (guessStep g letter).newState.attempts =
      (if (revealLoop letter g.answer.data g.currentProgress.data).2 then g.attempts
       else g.attempts - 1) := rfl

theorem guessStep_isCorrect (g : GameData) (letter : Char) :
    (guessStep g letter).isCorrectGuess =
      (revealLoop letter g.answer.data g.currentProgress.data).2 := rfl

theorem guessStep_guessed (g : GameData) (letter : Char) :
    (guessStep g letter).newState.guessedLetters = g.guessedLetters ++ [letter] := rfl

theorem guessStep_gameOver (g : GameData) (letter : Char) :
    (guessStep g letter).newState.gameOver =
      (decide ((guessStep g letter).newState.attempts ≤ 0) ||
        (String.mk (revealLoop letter g.answer.data g.currentProgress.data).1 == g.answer)) := rfl

theorem guessStep_progress (g : GameData) (letter : Char) :
    (guessStep g letter).newState.currentProgress =
      (if (guessStep g letter).newState.gameOver then g.answer
       else String.mk (revealLoop letter g.answer.data g.currentProgress.data).1) := rfl

theorem guessStep_won (g : GameData) (letter : Char) :
    (guessStep g letter).won =
      ((guessStep g letter).newState.gameOver &&
        decide (0 < (guessStep g letter).newState.attempts)) := rfl

/-! ### Lemmas about the reveal loop -/

theorem revealLoop_fst_length (letter : Char) :
    ∀ ans prog : List Char, (revealLoop letter ans prog).1.length = ans.length := by
  intro ans
  induction ans with
  | nil => intro prog; rfl
  | cons a as ih =>
    intro prog
    cases prog with
    | nil =>
      by_cases hc : a.toLower == letter <;> simp [revealLoop, hc, ih]
    | cons p ps =>
      by_cases hc : a.toLower == letter <;> simp [revealLoop, hc, ih]

theorem revealLoop_snd_iff (letter : Char) :
    ∀ ans prog : List Char,
      ((revealLoop letter ans prog).2 = true ↔ ∃ c ∈ ans, c.toLower = letter) := by
  intro ans
  induction ans with
  | nil => intro prog; simp [revealLoop]
  | cons a as ih =>
    intro prog
    cases prog with
    | nil =>
      by_cases hc : a.toLower = letter
      · simp [revealLoop, hc]
      · simp only [revealLoop, beq_iff_eq, if_neg hc]
        rw [ih]
        simp [hc]
    | cons p ps =>
      by_cases hc : a.toLower = letter
      · simp [revealLoop, hc]
      · simp only [revealLoop, beq_iff_eq, if_neg hc]
        rw [ih]
        simp [hc]

theorem revealLoop_getD (letter : Char) :
    ∀ ans prog : List Char, prog.length = ans.length →
      ∀ i, i < ans.length →
        (revealLoop letter ans prog).1.getD i ' ' =
          (if (ans.getD i ' ').toLower = letter then ans.getD i ' ' else prog.getD i ' ') := by
  intro ans
  induction ans with
  | nil => intro prog _ i hi; simp at hi
  | cons a as ih =>
    intro prog hlen i hi
    cases prog with
    | nil => simp at hlen
    | cons p ps =>
      cases i with
      | zero =>
        by_cases hc : a.toLower = letter <;> simp [revealLoop, hc]
      | succ n =>
        have hps : ps.length = as.length := by simpa using hlen
        have hn : n < as.length := by simpa using hi
        have hrec := ih ps hps n hn
        by_cases hc : a.toLower = letter
        · simp only [revealLoop, beq_iff_eq, if_pos hc, List.getD_cons_succ]
          exact hrec
        · simp only [revealLoop, beq_iff_eq, if_neg hc, List.getD_cons_succ]
          exact hrec

/-! ### Claims -/

/-- C5: for every answer string, the initial masking produces a string of the
same length in which every position holding a preserved character shows that
character unchanged and every other position is the placeholder underscore. -/
theorem claim_C5 (answer : String) :
    (maskWord answer).length = answer.length ∧
    ∀ i, i < answer.data.length →
      (maskWord answer).data.getD i ' ' =
        (if preserveChars.contains (answer.data.getD i ' ') then answer.data.getD i ' '
         else '_') := by
  refine ⟨List.length_map _ _, ?_⟩
  intro i hi
  have hmap : (maskWord answer).data =
      answer.data.map (fun char => if preserveChars.contains char then char else '_') := rfl
  have hlen : i <
      (answer.data.map (fun char => if preserveChars.contains char then char else '_')).length := by
    simpa using hi
  rw [hmap, List.getD_eq_getElem _ _ hlen, List.getD_eq_getElem _ _ hi, List.getElem_map]

/-- Witness for C5 at the spec scenario shape `"A.K.A."` (index 1 holds a
preserved period). -/
theorem claim_C5_witness :
    (maskWord "A.K.A.").length = ("A.K.A." : String).length ∧
    (maskWord "A.K.A.").data.getD 1 ' ' =
      (if preserveChars.contains (("A.K.A." : String).data.getD 1 ' ')
       then ("A.K.A." : String).data.getD 1 ' ' else '_') :=
  ⟨(claim_C5 "A.K.A.").1, (claim_C5 "A.K.A.").2 1 (by decide)⟩

/-- C10: for an answer made entirely of preserved characters, creation yields a
state whose progress already equals the answer while `gameOver` is still
`false` — the termination condition is never checked at creation. -/
theorem claim_C10 (level answer : String)
    (h : ∀ c ∈ answer.data, preserveChars.contains c = true) :
    (initGameData level answer).currentProgress = answer ∧
    (initGameData level answer).gameOver = false := by
  refine ⟨?_, rfl⟩
  show maskWord answer = answer
  unfold maskWord
  have hmap : answer.data.map (fun char => if preserveChars.contains char then char else '_') =
      answer.data := by
    have := List.map_congr_left (l := answer.data)
      (f := fun char => if preserveChars.contains char then char else '_') (g := id)
      (fun a ha => by
        have hmem : a ∈ preserveChars := by simpa using h a ha
        simp [hmem])
    simpa using this
  rw [hmap]

/-- Witness for C10 at the all-preserved answer `".-"`. -/
theorem claim_C10_witness :
    (initGameData "movies" ".-").currentProgress = ".-" ∧
    (initGameData "movies" ".-").gameOver = false :=
  claim_C10 "movies" ".-" (by decide)

/-- C9: when the word source returns nothing, game creation surfaces the
not-found condition and produces no game state; a created state only ever
arises from a present word. -/
theorem claim_C9 (level : String) :
    initializeGame level none = Except.error InitError.noWordAvailable ∧
    ∀ fetched result, initializeGame level fetched = Except.ok result →
      ∃ answer, fetched = some answer := by
  refine ⟨rfl, ?_⟩
  intro fetched result h
  cases fetched with
  | none =>
    unfold initializeGame at h
    exact Except.noConfusion h
  | some answer => exact ⟨answer, rfl⟩

/-- Witness for C9: the error case evaluated, and the acceptance case applied
at a present word. -/
theorem claim_C9_witness :
    initializeGame "movies" none = Except.error InitError.noWordAvailable ∧
    ∃ answer, (some "AB" : Option String) = some answer :=
  ⟨(claim_C9 "movies").1,
    (claim_C9 "movies").2 (some "AB")
      (initGameData "movies" "AB",
        { level := "movies", attempts := 6, currentProgress := maskWord "AB", gameOver := false })
      rfl⟩

/-- C3: a guess submitted against a terminal state is rejected with
`GameAlreadyOver` and the stored state is left exactly unchanged. -/
theorem claim_C3 (g : GameData) (letter : Char) (h : g.gameOver = true) :
    processGuess g letter = (g, Except.error GuessError.gameAlreadyOver) := by
  simp [processGuess, makeGuess, h]

/-- Witness for C3 at a concrete lost game. -/
theorem claim_C3_witness :
    processGuess
        { level := "movies", answer := "JAWS", currentProgress := "JAWS", attempts := 0,
          gameOver := true, guessedLetters := ['a', 'z'] } 'b' =
      ({ level := "movies", answer := "JAWS", currentProgress := "JAWS", attempts := 0,
          gameOver := true, guessedLetters := ['a', 'z'] }, Except.error GuessError.gameAlreadyOver) :=
  claim_C3 _ 'b' rfl

/-- Counterexample to C4: in a terminal state whose history already contains
the letter, the code rejects with `GameAlreadyOver`, not `LetterAlreadyGuessed`,
because the game-over check runs first. -/
theorem claim_C4_counterexample :
    overGameC4.guessedLetters.contains 'a' = true ∧
    makeGuess overGameC4 'a' = Except.error GuessError.gameAlreadyOver ∧
    ¬ makeGuess overGameC4 'a' = Except.error GuessError.letterAlreadyGuessed := by
  refine ⟨rfl, rfl, fun hcontra => ?_⟩
  rw [show makeGuess overGameC4 'a' = Except.error GuessError.gameAlreadyOver from rfl] at hcontra
  injection hcontra with h
  exact GuessError.noConfusion h

/-- C4 (amended): in an active state, resubmitting a letter already present in
`guessedLetters` is rejected with `LetterAlreadyGuessed` before any reveal logic
and leaves the stored state unchanged; in a terminal state the rejection is
`GameAlreadyOver` instead (also without mutation). -/
theorem claim_C4 (g : GameData) (letter : Char)
    (hover : g.gameOver = false)
    (hdup : g.guessedLetters.contains letter = true) :
    processGuess g letter = (g, Except.error GuessError.letterAlreadyGuessed) := by
  have hdup' : letter ∈ g.guessedLetters := by simpa using hdup
  simp [processGuess, makeGuess, hover, hdup']

/-- Witness for C4 at a concrete active state with a repeated letter. -/
theorem claim_C4_witness :
    processGuess
        { level := "movies", answer := "AB", currentProgress := "A_", attempts := 5,
          gameOver := false, guessedLetters := ['a', 'z'] } 'a' =
      ({ level := "movies", answer := "AB", currentProgress := "A_", attempts := 5,
          gameOver := false, guessedLetters := ['a', 'z'] },
        Except.error GuessError.letterAlreadyGuessed) :=
  claim_C4 _ 'a' rfl rfl

/-- C1: for an active state and a fresh guess, the resolver scans every
position of the answer: matching positions (case-insensitively) receive the
original-case answer character, all others keep their existing progress
character, `isCorrectGuess` is true iff some position matched, and repeated
occurrences are all revealed by the single guess. -/
theorem claim_C1 (g : GameData) (letter : Char)
    (hover : g.gameOver = false)
    (hdup : g.guessedLetters.contains letter = false)
    (hlen : g.currentProgress.data.length = g.answer.data.length) :
    ∃ r, makeGuess g letter = Except.ok r ∧
      r.isCorrectGuess = (revealLoop letter g.answer.data g.currentProgress.data).2 ∧
      ((revealLoop letter g.answer.data g.currentProgress.data).2 = true ↔
        ∃ c ∈ g.answer.data, c.toLower = letter) ∧
      (∀ i, i < g.answer.data.length →
        (revealLoop letter g.answer.data g.currentProgress.data).1.getD i ' ' =
          (if (g.answer.data.getD i ' ').toLower = letter then g.answer.data.getD i ' '
           else g.currentProgress.data.getD i ' ')) ∧
      (r.newState.gameOver = false →
        r.newState.currentProgress =
          String.mk (revealLoop letter g.answer.data g.currentProgress.data).1) := by
  have hdup' : ¬ letter ∈ g.guessedLetters := by simpa using hdup
  refine ⟨guessStep g letter, by simp [makeGuess, hover, hdup'], rfl,
    revealLoop_snd_iff letter _ _, revealLoop_getD letter _ _ hlen, ?_⟩
  intro hnot
  rw [guessStep_progress, hnot]
  simp

/-- Witness for C1 at the repeated-letter answer `"ABBA"` with guess `b`. -/
theorem claim_C1_witness :
    ∃ r, makeGuess (initGameData "movies" "ABBA") 'b' = Except.ok r ∧
      r.isCorrectGuess =
        (revealLoop 'b' (initGameData "movies" "ABBA").answer.data
          (initGameData "movies" "ABBA").currentProgress.data).2 ∧
      ((revealLoop 'b' (initGameData "movies" "ABBA").answer.data
          (initGameData "movies" "ABBA").currentProgress.data).2 = true ↔
        ∃ c ∈ (initGameData "movies" "ABBA").answer.data, c.toLower = 'b') ∧
      (∀ i, i < (initGameData "movies" "ABBA").answer.data.length →
        (revealLoop 'b' (initGameData "movies" "ABBA").answer.data
          (initGameData "movies" "ABBA").currentProgress.data).1.getD i ' ' =
          (if ((initGameData "movies" "ABBA").answer.data.getD i ' ').toLower = 'b'
           then (initGameData "movies" "ABBA").answer.data.getD i ' '
           else (initGameData "movies" "ABBA").currentProgress.data.getD i ' ')) ∧
      (r.newState.gameOver = false →
        r.newState.currentProgress =
          String.mk (revealLoop 'b' (initGameData "movies" "ABBA").answer.data
            (initGameData "movies" "ABBA").currentProgress.data).1) :=
  claim_C1 (initGameData "movies" "ABBA") 'b' rfl rfl rfl

/-- C2: after an accepted guess from a state with at least one attempt left,
`gameOver` holds iff attempts hit zero or the scanned progress equals the
answer; a terminal result stores the full answer as progress; `won` holds iff
the game is over with attempts remaining; and a correct guess never changes
`attempts`. -/
theorem claim_C2 (g : GameData) (letter : Char) (r : GuessResult)
    (hatt : 1 ≤ g.attempts)
    (h : makeGuess g letter = Except.ok r) :
    (r.newState.gameOver = true ↔
      (r.newState.attempts = 0 ∨
        String.mk (revealLoop letter g.answer.data g.currentProgress.data).1 = g.answer)) ∧
    (r.newState.gameOver = true → r.newState.currentProgress = g.answer) ∧
    (r.won = true ↔ (r.newState.gameOver = true ∧ 0 < r.newState.attempts)) ∧
    (r.isCorrectGuess = true → r.newState.attempts = g.attempts) := by
  obtain ⟨hover, hdup, rfl⟩ := makeGuess_ok_elim h
  have hatt' : 0 ≤ (guessStep g letter).newState.attempts := by
    rw [guessStep_attempts]
    split <;> omega
  refine ⟨?_, ?_, ?_, ?_⟩
  · rw [guessStep_gameOver]
    simp only [Bool.or_eq_true, decide_eq_true_eq, beq_iff_eq]
    constructor
    · rintro (h1 | h2)
      · exact Or.inl (le_antisymm h1 hatt')
      · exact Or.inr h2
    · rintro (h1 | h2)
      · exact Or.inl (le_of_eq h1)
      · exact Or.inr h2
  · intro hov
    rw [guessStep_progress, hov]
    simp
  · rw [guessStep_won]
    simp
  · intro hc
    rw [guessStep_isCorrect] at hc
    rw [guessStep_attempts, hc]
    simp

/-- Witness for C2 at a last-attempt winning guess: answer `"A"`, one attempt
left, correct guess `a` wins with attempts still 1 and full reveal. -/
theorem claim_C2_witness :
    (guessStep
        { level := "movies", answer := "A", currentProgress := "_", attempts := 1,
          gameOver := false, guessedLetters := [] } 'a').newState.currentProgress =
      ({ level := "movies", answer := "A", currentProgress := "_", attempts := 1,
         gameOver := false, guessedLetters := [] } : GameData).answer ∧
    (guessStep
        { level := "movies", answer := "A", currentProgress := "_", attempts := 1,
          gameOver := false, guessedLetters := [] } 'a').won = true ∧
    (guessStep
        { level := "movies", answer := "A", currentProgress := "_", attempts := 1,
          gameOver := false, guessedLetters := [] } 'a').newState.attempts =
      ({ level := "movies", answer := "A", currentProgress := "_", attempts := 1,
         gameOver := false, guessedLetters := [] } : GameData).attempts := by
  have h := claim_C2
    { level := "movies", answer := "A", currentProgress := "_", attempts := 1,
      gameOver := false, guessedLetters := [] } 'a' _ (by decide) rfl
  exact ⟨h.2.1 (by decide), h.2.2.1.mpr ⟨by decide, by decide⟩, h.2.2.2 (by decide)⟩

/-- Attempts invariant over reachable states: non-negative, at most 6, and at
least 1 while the game is active. -/
theorem reachable_attempts_inv {g : GameData} (h : Reachable g) :
    0 ≤ g.attempts ∧ g.attempts ≤ 6 ∧ (g.gameOver = false → 1 ≤ g.attempts) := by
  induction h with
  | init level answer =>
    refine ⟨by norm_num [initGameData], by norm_num [initGameData], fun _ => by norm_num [initGameData]⟩
  | @step g letter r hre hok ih =>
    obtain ⟨hover, hdup, hr⟩ := makeGuess_ok_elim hok
    subst hr
    have hga : 1 ≤ g.attempts := ih.2.2 hover
    have h6 : g.attempts ≤ 6 := ih.2.1
    refine ⟨?_, ?_, ?_⟩
    · rw [guessStep_attempts]
      split <;> omega
    · rw [guessStep_attempts]
      split <;> omega
    · intro hnov
      have hpos : ¬ ((guessStep g letter).newState.attempts ≤ 0) := by
        intro hle
        rw [guessStep_gameOver] at hnov
        simp [hle] at hnov
      omega

/-- C6: attempts start at 6, drop by exactly 1 per incorrect accepted guess and
are unchanged by a correct one, never increase, and stay within `[0, 6]` on
every reachable state. -/
theorem claim_C6 :
    (∀ level answer, (initGameData level answer).attempts = 6) ∧
    (∀ g letter r, makeGuess g letter = Except.ok r →
      r.newState.attempts = (if r.isCorrectGuess then g.attempts else g.attempts - 1) ∧
      r.newState.attempts ≤ g.attempts) ∧
    (∀ g, Reachable g → 0 ≤ g.attempts ∧ g.attempts ≤ 6) := by
  refine ⟨fun level answer => rfl, ?_,
    fun g hre => ⟨(reachable_attempts_inv hre).1, (reachable_attempts_inv hre).2.1⟩⟩
  intro g letter r hok
  obtain ⟨hover, hdup, rfl⟩ := makeGuess_ok_elim hok
  constructor
  · rw [guessStep_attempts, guessStep_isCorrect]
  · rw [guessStep_attempts]
    split <;> omega

/-- Witness for C6 at a fresh game. -/
theorem claim_C6_witness :
    (initGameData "movies" "AB").attempts = 6 ∧
    (0 ≤ (initGameData "movies" "AB").attempts ∧ (initGameData "movies" "AB").attempts ≤ 6) :=
  ⟨claim_C6.1 "movies" "AB", claim_C6.2.2 _ (Reachable.init "movies" "AB")⟩

/-- C7: every accepted guess appends the letter to the end of the guess
history, and on every reachable state the history has no duplicates. -/
theorem claim_C7 :
    (∀ g letter r, makeGuess g letter = Except.ok r →
      r.newState.guessedLetters = g.guessedLetters ++ [letter]) ∧
    (∀ g, Reachable g → g.guessedLetters.Nodup) := by
  have happend : ∀ g letter r, makeGuess g letter = Except.ok r →
      r.newState.guessedLetters = g.guessedLetters ++ [letter] := by
    intro g letter r hok
    obtain ⟨-, -, rfl⟩ := makeGuess_ok_elim hok
    rfl
  refine ⟨happend, ?_⟩
  intro g hre
  induction hre with
  | init level answer => exact List.nodup_nil
  | @step g letter r hre hok ih =>
    obtain ⟨hover, hdup, hr⟩ := makeGuess_ok_elim hok
    have hnotmem : letter ∉ g.guessedLetters := by simpa using hdup
    rw [happend g letter r hok]
    simp [List.nodup_append, ih, hnotmem]

/-- Witness for C7: the first accepted guess of a fresh game appends to the
empty history. -/
theorem claim_C7_witness :
    (guessStep (initGameData "movies" "AB") 'a').newState.guessedLetters =
      (initGameData "movies" "AB").guessedLetters ++ ['a'] :=
  claim_C7.1 (initGameData "movies" "AB") 'a' _ rfl

/-- C8: every outward-facing response factors through the answer-free
projection of the stored state (plus the outcome flags for a guess): the secret
answer field itself is never part of a response. -/
theorem claim_C8 :
    (∀ level answer gameData v,
      initializeGame level (some answer) = Except.ok (gameData, v) →
      v = initViewOfPublic (erase gameData)) ∧
    (∀ g, getCurrentView g = currentViewOfPublic (erase g)) ∧
    (∀ g letter r, makeGuess g letter = Except.ok r →
      makeGuessView g letter =
        Except.ok (guessViewOfPublic (erase r.newState) r.isCorrectGuess r.won)) := by
  refine ⟨?_, fun g => rfl, ?_⟩
  · intro level answer gameData v h
    unfold initializeGame at h
    injection h with h1
    injection h1 with h2 h3
    subst h2
    subst h3
    rfl
  · intro g letter r hok
    obtain ⟨hover, hdup, rfl⟩ := makeGuess_ok_elim hok
    unfold makeGuessView
    rw [hok]
    rfl

/-- Witness for C8: retrieval and guess responses at a concrete game. -/
theorem claim_C8_witness :
    getCurrentView (initGameData "movies" "AB") =
      currentViewOfPublic (erase (initGameData "movies" "AB")) ∧
    makeGuessView (initGameData "movies" "AB") 'a' =
      Except.ok (guessViewOfPublic (erase (guessStep (initGameData "movies" "AB") 'a').newState)
        (guessStep (initGameData "movies" "AB") 'a').isCorrectGuess
        (guessStep (initGameData "movies" "AB") 'a').won) :=
  ⟨claim_C8.2.1 (initGameData "movies" "AB"),
    claim_C8.2.2 (initGameData "movies" "AB") 'a' _ rfl⟩

end Hangman
